import Mathlib

/-!
Verification of the voyager environmental-field engine and orchestrator.

This file gives a shallow embedding, in Lean 4, of the core of the
`voyager` repository (files `voyager/utils.py`, `voyager/chart.py`,
`voyager/traverser.py`) and proves the stated behavioural properties
against it.

Modelling conventions:
* Longitudes, latitudes, timestamps and data values are rationals (`ℚ`);
  the Python code computes with IEEE floats, but every operation the
  properties depend on (comparisons, subtraction of 360, squaring,
  linear spacing, slicing) is exact arithmetic, which `ℚ` models
  faithfully.
* A missing value (`NaN` in the arrays, the land mask) is `Option.none`;
  a present reading is `Option.some v`.
* A raised Python exception is `Except.error` with the exception text.
* Dates are modelled as day numbers (`pd.date_range(start, end)` with a
  daily frequency is the integer interval `[start, end]`).
-/

namespace Voyager

/-! ### utils.normalize_longitude (utils.py, lines 48-63)

`east = lon[np.where((lon >= 0) & (lon <= 180))]`,
`west = lon[np.where((lon > 180) & (lon <= 360))] - 360`,
returns `concatenate([east, west])`.  Boolean-mask indexing keeps the
matching elements in their original order, hence `List.filter`. -/

def normalize_longitude (lon : List ℚ) : List ℚ :=
  let east := lon.filter (fun x => decide (0 ≤ x ∧ x ≤ 180))
  let west := (lon.filter (fun x => decide (180 < x ∧ x ≤ 360))).map (fun x => x - 360)
  east ++ west

/-! ### utils.load_data source dispatch (utils.py, lines 143-152)

`load_data` branches on the `source` string: `"currents"` is normalized
through `cmems_to_xr`, `"winds"` through `ecmwf_to_xr`, and any other
value raises `ValueError("Source must be currents or winds.")`.  The
I/O around the branch (globbing, open_mfdataset, time slicing) does not
affect which branch is taken, so the dispatch is embedded on its own. -/

inductive SourceNormalization where
  | cmems
  | ecmwf
deriving DecidableEq

def load_data_dispatch (source : String) : Except String SourceNormalization :=
  if source = "currents" then Except.ok SourceNormalization.cmems
  else if source = "winds" then Except.ok SourceNormalization.ecmwf
  else Except.error "Source must be currents or winds."

/-! ### Traverser launch schedule (traverser.py, lines 40-45 and 122)

`self.dates = pd.date_range(self.start_date, self.end_date)` is the
inclusive daily range; the launch loop iterates
`self.dates[::self.launch_day_frequency]`, i.e. the elements at indices
0, k, 2k, ... of that range. -/

def date_range (s e : ℕ) : List ℕ :=
  (List.range (e + 1 - s)).map (fun i => s + i)

def stride {α : Type} (l : List α) (k : ℕ) : List α :=
  (List.range l.length).filterMap (fun i => if i % k = 0 then l[i]? else none)

def launch_schedule (s e k : ℕ) : List ℕ :=
  stride (date_range s e) k

theorem date_range_getElem? (s e i : ℕ) :
    (date_range s e)[i]? = if i < e + 1 - s then some (s + i) else none := by
  simp [date_range, List.getElem?_map, List.getElem?_range]
  split <;> simp_all [List.getElem?_eq_none, Nat.le_of_not_lt]

theorem mem_stride {α : Type} (l : List α) (k : ℕ) (x : α) :
    x ∈ stride l k ↔ ∃ i, i % k = 0 ∧ l[i]? = some x := by
  constructor
  · intro hx
    simp only [stride, List.mem_filterMap, List.mem_range] at hx
    obtain ⟨i, _, hi⟩ := hx
    by_cases h : i % k = 0
    · exact ⟨i, h, by simpa [h] using hi⟩
    · simp [h] at hi
  · rintro ⟨i, hik, hi⟩
    have hlen : i < l.length := by
      by_contra h
      rw [List.getElem?_eq_none (Nat.le_of_not_lt h)] at hi
      exact Option.noConfusion hi
    simp only [stride, List.mem_filterMap, List.mem_range]
    exact ⟨i, hlen, by simp [hik, hi]⟩

theorem count_split_longitude (l : List ℚ) :
    (l.filter (fun x => decide (0 ≤ x ∧ x ≤ 180))).length
      + (l.filter (fun x => decide (180 < x ∧ x ≤ 360))).length
      = (l.filter (fun x => decide (0 ≤ x ∧ x ≤ 360))).length := by
  induction l with
  | nil => rfl
  | cons x xs ih =>
    simp only [List.filter_cons]
    rcases le_or_lt x 180 with hle | hgt
    · have h2 : decide (180 < x ∧ x ≤ 360) = false := by
        simp only [decide_eq_false_iff_not, not_and]
        intro hc
        exact absurd hle (not_le.mpr hc)
      by_cases h0 : 0 ≤ x
      · have h1 : decide (0 ≤ x ∧ x ≤ 180) = true := by
          simp [h0, hle]
        have h3 : decide (0 ≤ x ∧ x ≤ 360) = true := by
          simp only [decide_eq_true_eq]
          exact ⟨h0, by linarith⟩
        simp only [h1, h2, h3, Bool.false_eq_true, eq_self_iff_true, if_true,
          if_false, List.length_cons]
        omega
      · have h1 : decide (0 ≤ x ∧ x ≤ 180) = false := by simp [h0]
        have h3 : decide (0 ≤ x ∧ x ≤ 360) = false := by simp [h0]
        simp only [h1, h2, h3, Bool.false_eq_true, if_false]
        exact ih
    · have h1 : decide (0 ≤ x ∧ x ≤ 180) = false := by
        simp only [decide_eq_false_iff_not, not_and]
        intro _
        exact not_le.mpr hgt
      by_cases h360 : x ≤ 360
      · have h2 : decide (180 < x ∧ x ≤ 360) = true := by simp [hgt, h360]
        have h3 : decide (0 ≤ x ∧ x ≤ 360) = true := by
          simp only [decide_eq_true_eq]
          exact ⟨by linarith, h360⟩
        simp only [h1, h2, h3, Bool.false_eq_true, eq_self_iff_true, if_true,
          if_false, List.length_cons]
        omega
      · have h2 : decide (180 < x ∧ x ≤ 360) = false := by simp [h360]
        have h3 : decide (0 ≤ x ∧ x ≤ 360) = false := by simp [h360]
        simp only [h1, h2, h3, Bool.false_eq_true, if_false]
        exact ih

/-- C1: the source dispatch of `load_data`.  `"currents"` and `"winds"` are
accepted and routed to their normalizers, but `"waves"` — although it is in
the spec's enumeration and is passed by `Chart.load` itself — falls into the
`else` branch and raises `ValueError("Source must be currents or winds.")`. -/
theorem load_data_dispatch_waves_rejected :
    load_data_dispatch "currents" = Except.ok SourceNormalization.cmems
    ∧ load_data_dispatch "winds" = Except.ok SourceNormalization.ecmwf
    ∧ load_data_dispatch "waves" = Except.error "Source must be currents or winds." := by
  refine ⟨rfl, rfl, rfl⟩

/-- C2 counterexample: `normalize_longitude` is not idempotent.  The array
`[350]` normalizes to `[-10]`, which is already in the signed ±180°
convention, but a second application drops the negative value and returns
`[]`, not `[-10]`. -/
theorem normalize_longitude_not_idempotent :
    normalize_longitude (normalize_longitude [(350 : ℚ)])
      ≠ normalize_longitude [(350 : ℚ)] := by
  norm_num [normalize_longitude, List.filter]

/-- C2 (amended): `normalize_longitude [350, 10] = [10, -10]` (east values
first, then the shifted west values), and `normalize_longitude` is the
identity — hence idempotent — on arrays all of whose values lie in
`[0, 180]`; it is not idempotent in general, because a west value in the
output is negative and is dropped by a second application. -/
theorem normalize_longitude_east_identity (l : List ℚ)
    (h : ∀ x ∈ l, 0 ≤ x ∧ x ≤ 180) :
    normalize_longitude l = l
    ∧ normalize_longitude (normalize_longitude l) = normalize_longitude l
    ∧ normalize_longitude [(350 : ℚ), 10] = [10, -10] := by
  have he : l.filter (fun x => decide (0 ≤ x ∧ x ≤ 180)) = l :=
    List.filter_eq_self.mpr (fun a ha => by simpa using h a ha)
  have hw : l.filter (fun x => decide (180 < x ∧ x ≤ 360)) = [] := by
    rw [List.filter_eq_nil_iff]
    intro a ha
    have h2 := (h a ha).2
    simp only [decide_eq_true_eq, not_and]
    intro h180
    linarith
  have h1 : normalize_longitude l = l := by
    simp only [normalize_longitude]
    rw [he, hw]
    simp
  exact ⟨h1, by rw [h1]; exact h1, by norm_num [normalize_longitude, List.filter]⟩

theorem normalize_longitude_east_identity_witness :
    normalize_longitude [(10 : ℚ), 170] = [10, 170] :=
  (normalize_longitude_east_identity [(10 : ℚ), 170]
    (by intro x hx; fin_cases hx <;> norm_num)).1

/-- C10: `normalize_longitude` keeps only input values in `[0, 360]`:
pre-filtering the input to that range does not change the output, the
output's length is the number of in-range inputs, and on `[-5, 400, 10]`
the output is strictly shorter than the input. -/
theorem normalize_longitude_keeps_in_range (l : List ℚ) :
    normalize_longitude l
      = normalize_longitude (l.filter (fun x => decide (0 ≤ x ∧ x ≤ 360)))
    ∧ (normalize_longitude l).length
        = (l.filter (fun x => decide (0 ≤ x ∧ x ≤ 360))).length
    ∧ (normalize_longitude [(-5 : ℚ), 400, 10]).length
        < ([(-5 : ℚ), 400, 10] : List ℚ).length := by
  refine ⟨?_, ?_, by norm_num [normalize_longitude, List.filter]⟩
  · simp only [normalize_longitude, List.filter_filter]
    have heast : ∀ x : ℚ,
        (decide (0 ≤ x ∧ x ≤ 180) && decide (0 ≤ x ∧ x ≤ 360))
          = decide (0 ≤ x ∧ x ≤ 180) := by
      intro x
      by_cases hx : 0 ≤ x ∧ x ≤ 180
      · simp [hx, hx.1, le_trans hx.2 (by norm_num : (180 : ℚ) ≤ 360)]
      · simp [hx]
    have hwest : ∀ x : ℚ,
        (decide (180 < x ∧ x ≤ 360) && decide (0 ≤ x ∧ x ≤ 360))
          = decide (180 < x ∧ x ≤ 360) := by
      intro x
      by_cases hx : 180 < x ∧ x ≤ 360
      · simp [hx, hx.2, le_of_lt (lt_trans (by norm_num : (0 : ℚ) < 180) hx.1)]
      · simp [hx]
    simp only [funext heast, funext hwest]
  · simpa [normalize_longitude] using count_split_longitude l

/-- C6: the launch schedule is `dates[::launch_frequency]` of the inclusive
daily range `[start_date, end_date]`: it contains exactly the dates `d` with
`start ≤ d ≤ end` and `(d - start) % frequency = 0`, it starts at
`start_date`, and for start 2020-01-01, end 2020-01-10 (days 1 and 10 of
January 2020) with frequency 5 it is exactly the two days 2020-01-01 and
2020-01-06. -/
theorem launch_schedule_correct (s e k : ℕ) (_hk : 0 < k) (hse : s ≤ e) :
    (∀ d, d ∈ launch_schedule s e k ↔ s ≤ d ∧ d ≤ e ∧ (d - s) % k = 0)
    ∧ (launch_schedule s e k).head? = some s
    ∧ launch_schedule 1 10 5 = [1, 6] := by
  refine ⟨?_, ?_, by decide⟩
  · intro d
    rw [launch_schedule, mem_stride]
    constructor
    · rintro ⟨i, hik, hi⟩
      rw [date_range_getElem?] at hi
      by_cases hlt : i < e + 1 - s
      · rw [if_pos hlt] at hi
        have hd : s + i = d := Option.some.inj hi
        subst hd
        refine ⟨Nat.le_add_right s i, by omega, by simpa using hik⟩
      · simp [hlt] at hi
    · rintro ⟨hsd, hde, hmod⟩
      refine ⟨d - s, hmod, ?_⟩
      rw [date_range_getElem?]
      have : d - s < e + 1 - s := by omega
      simp [this]
      omega
  · obtain ⟨n, hn⟩ : ∃ n, e + 1 - s = n + 1 := ⟨e - s, by omega⟩
    have hlen : (date_range s e).length = e + 1 - s := by simp [date_range]
    rw [launch_schedule, stride, hlen, hn, List.range_succ_eq_map,
      List.filterMap_cons]
    simp [date_range_getElem?, hn]

theorem launch_schedule_correct_witness :
    6 ∈ launch_schedule 1 10 5 ∧ (launch_schedule 1 10 5).head? = some 1 := by
  have h := launch_schedule_correct 1 10 5 (by norm_num) (by norm_num)
  exact ⟨(h.1 6).mpr (by norm_num), h.2.1⟩

/-! ### chart._interpolate (chart.py, lines 248-278)

A gridded field is a 3-D array indexed `(time, latitude, longitude)`
whose longitude/latitude coordinates are either 1-D vectors (regular
grid) or 2-D arrays (curvilinear grid).  `_interpolate` slices the field
to `[start_date, end_date]` along time and wraps
`scipy.interpolate.RegularGridInterpolator` around
`(arange(T), longitudes, latitudes)` and the value array transposed so
the spatial axes come in the order `(longitude, latitude)`:

* it first tries the raw coordinate arrays (the regular-grid path);
* on ANY exception it falls back to synthetic axes
  `np.linspace(coord.min(), coord.max(), N)` with `N = longitude.shape[1]`
  resp. `N = latitude.shape[0]` (the curvilinear path); for a 1-D
  coordinate array `shape[1]` itself raises `IndexError`, which is not
  caught.

`RegularGridInterpolator`'s constructor (its documented contract)
requires each axis to be a 1-D strictly monotonic array whose length
matches the corresponding dimension of the value array, and raises
`ValueError` otherwise; with `bounds_error=False, fill_value=np.nan`
every out-of-domain query yields `NaN` instead of raising. -/

inductive Coords where
  | one : List ℚ → Coords
  | two : List (List ℚ) → Coords
deriving DecidableEq

structure Field where
  lon : Coords
  lat : Coords
  times : List ℚ
  vals : List (List (List (Option ℚ)))
deriving DecidableEq

instance exceptDecEq {ε α : Type} [DecidableEq ε] [DecidableEq α] :
    DecidableEq (Except ε α) := fun x y =>
  match x, y with
  | Except.ok a, Except.ok b =>
    if h : a = b then isTrue (by rw [h])
    else isFalse (by intro hc; cases hc; exact h rfl)
  | Except.error a, Except.error b =>
    if h : a = b then isTrue (by rw [h])
    else isFalse (by intro hc; cases hc; exact h rfl)
  | Except.ok _, Except.error _ => isFalse (by intro hc; cases hc)
  | Except.error _, Except.ok _ => isFalse (by intro hc; cases hc)

structure Interp where
  taxis : List ℚ
  lonaxis : List ℚ
  lataxis : List ℚ
  vals : List (List (List (Option ℚ)))
deriving DecidableEq

def timeSlice (f : Field) (s e : ℚ) : List (List (List (Option ℚ))) :=
  ((f.times.zip f.vals).filter (fun p => decide (s ≤ p.1 ∧ p.1 ≤ e))).map Prod.snd

def arangeQ (n : ℕ) : List ℚ :=
  (List.range n).map (fun i => (i : ℚ))

def linspace (a b : ℚ) (n : ℕ) : List ℚ :=
  if n = 1 then [a]
  else (List.range n).map (fun i => a + (b - a) * i / (n - 1))

def transposeT (x : List (List (List (Option ℚ)))) : List (List (List (Option ℚ))) :=
  x.map List.transpose

def chainLT : List ℚ → Bool
  | [] => true
  | [_] => true
  | a :: b :: rest => decide (a < b) && chainLT (b :: rest)

def chainGT : List ℚ → Bool
  | [] => true
  | [_] => true
  | a :: b :: rest => decide (b < a) && chainGT (b :: rest)

def strictMonotone (l : List ℚ) : Bool :=
  chainLT l || chainGT l

def dimsMatch (tn lonn latn : ℕ) (v : List (List (List (Option ℚ)))) : Bool :=
  decide (v.length = tn)
    && v.all (fun slab => decide (slab.length = lonn)
        && slab.all (fun row => decide (row.length = latn)))

def rgiBuild (t lons lats : List ℚ) (v : List (List (List (Option ℚ)))) :
    Except String Interp :=
  if strictMonotone t && strictMonotone lons && strictMonotone lats
      && dimsMatch t.length lons.length lats.length v then
    Except.ok (Interp.mk t lons lats v)
  else
    Except.error "ValueError: RegularGridInterpolator"

def listMinQ : List ℚ → ℚ
  | [] => 0
  | x :: xs => xs.foldl min x

def listMaxQ : List ℚ → ℚ
  | [] => 0
  | x :: xs => xs.foldl max x

def coordFlat : Coords → List ℚ
  | Coords.one l => l
  | Coords.two m => m.flatten

def coordShape0 : Coords → ℕ
  | Coords.one l => l.length
  | Coords.two m => m.length

def coordShape1 : Coords → Except String ℕ
  | Coords.one _ => Except.error "IndexError: tuple index out of range"
  | Coords.two m => Except.ok (m.headD []).length

def regularPath (f : Field) (x : List (List (List (Option ℚ)))) :
    Except String Interp :=
  match f.lon, f.lat with
  | Coords.one lons, Coords.one lats => rgiBuild (arangeQ x.length) lons lats (transposeT x)
  | _, _ => Except.error "ValueError: the points must be 1-dimensional"

def curvilinearPath (f : Field) (x : List (List (List (Option ℚ)))) :
    Except String Interp :=
  match coordShape1 f.lon with
  | Except.error e => Except.error e
  | Except.ok nlon =>
    let lons := linspace (listMinQ (coordFlat f.lon)) (listMaxQ (coordFlat f.lon)) nlon
    let lats := linspace (listMinQ (coordFlat f.lat)) (listMaxQ (coordFlat f.lat))
      (coordShape0 f.lat)
    rgiBuild (arangeQ x.length) lons lats (transposeT x)

def interpolateField (f : Field) (s e : ℚ) : Except String Interp :=
  match regularPath f (timeSlice f s e) with
  | Except.ok i => Except.ok i
  | Except.error _ => curvilinearPath f (timeSlice f s e)

/-! ### Evaluating the interpolant

`RegularGridInterpolator(..., bounds_error=False, fill_value=np.nan)`
first compares the query against the grid extent; a component outside
`[axis.min, axis.max]` makes the result `NaN`.  Inside the domain the
value is the trilinear blend of the 8 surrounding nodes; any `NaN` node
among them poisons the result (0·NaN = NaN in IEEE arithmetic).  The
index search below assumes ascending axes, which is how the code builds
its time axis and how the data files store coordinates; the
out-of-domain check (the part the claims are about) uses the axis
minimum and maximum and so is order-independent. -/

def cellIndex (axis : List ℚ) (q : ℚ) : ℕ × ℚ :=
  let i := min ((axis.filter (fun a => decide (a ≤ q))).length - 1) (axis.length - 2)
  let a0 := axis.getD i 0
  let a1 := axis.getD (i + 1) 0
  (i, if a1 = a0 then 0 else (q - a0) / (a1 - a0))

def val3 (v : List (List (List (Option ℚ)))) (i j k : ℕ) : Option ℚ :=
  ((v.getD i []).getD j []).getD k none

def Interp.inDomain (I : Interp) (t lon lat : ℚ) : Bool :=
  decide (listMinQ I.taxis ≤ t ∧ t ≤ listMaxQ I.taxis)
    && decide (listMinQ I.lonaxis ≤ lon ∧ lon ≤ listMaxQ I.lonaxis)
    && decide (listMinQ I.lataxis ≤ lat ∧ lat ≤ listMaxQ I.lataxis)

def Interp.eval (I : Interp) (t lon lat : ℚ) : Option ℚ :=
  if I.inDomain t lon lat then
    let pt := cellIndex I.taxis t
    let pj := cellIndex I.lonaxis lon
    let pk := cellIndex I.lataxis lat
    let corner := fun (a b c : ℕ) => val3 I.vals (pt.1 + a) (pj.1 + b) (pk.1 + c)
    let cs := [corner 0 0 0, corner 0 0 1, corner 0 1 0, corner 0 1 1,
               corner 1 0 0, corner 1 0 1, corner 1 1 0, corner 1 1 1]
    if cs.all Option.isSome then
      let g := fun (n : ℕ) => ((cs.getD n none).getD 0)
      let wt := pt.2
      let wj := pj.2
      let wk := pk.2
      some (g 0 * (1 - wt) * (1 - wj) * (1 - wk) + g 1 * (1 - wt) * (1 - wj) * wk
        + g 2 * (1 - wt) * wj * (1 - wk) + g 3 * (1 - wt) * wj * wk
        + g 4 * wt * (1 - wj) * (1 - wk) + g 5 * wt * (1 - wj) * wk
        + g 6 * wt * wj * (1 - wk) + g 7 * wt * wj * wk)
    else none
  else none

/-- Dispatch rule as the spec words it, for comparison with
`interpolateField`: inspect the coordinate dimensionality — the regular
path exactly when the longitude/latitude coordinates are 1-D, the
curvilinear reconstruction exactly when they are 2-D, never via
exception fallback. -/
def interpolateFieldByDim (f : Field) (s e : ℚ) : Except String Interp :=
  match f.lon, f.lat with
  | Coords.one _, Coords.one _ => regularPath f (timeSlice f s e)
  | _, _ => curvilinearPath f (timeSlice f s e)

/-- Field with 1-D coordinate vectors whose longitude axis is not
monotonic: the regular-grid path fails for a reason unrelated to
dimensionality. -/
def cexField : Field :=
  Field.mk (Coords.one [0, 2, 1]) (Coords.one [0, 1]) [0, 1]
    [[[some 0, some 0, some 0], [some 0, some 0, some 0]],
     [[some 0, some 0, some 0], [some 0, some 0, some 0]]]

/-- C4 counterexample: on a field with 1-D (but non-monotonic) coordinate
arrays the code does not choose the path by dimensionality — it catches the
regular path's ValueError and attempts the curvilinear reconstruction
anyway, which then raises IndexError on `longitude.shape[1]`; dispatching
on dimensionality would surface the regular path's own error instead. -/
theorem interpolate_dispatch_cex :
    interpolateField cexField 0 1 = Except.error "IndexError: tuple index out of range"
    ∧ interpolateFieldByDim cexField 0 1 = Except.error "ValueError: RegularGridInterpolator"
    ∧ interpolateField cexField 0 1 ≠ interpolateFieldByDim cexField 0 1 := by
  refine ⟨by decide, by decide, by decide⟩

/-- C4 (amended): the interpolator's choice of path is implemented as
exception fallback, not dimensionality inspection: the regular path is used
whenever its construction succeeds, and on any regular-path failure the
curvilinear reconstruction is attempted.  When the coordinate arrays are
2-D this coincides with the claimed dimensionality dispatch, and the
synthetic axes are the claimed ones: `N` linearly spaced points between the
min and max of each 2-D coordinate array, with `N = longitude.shape[1]`
resp. `N = latitude.shape[0]`, the corresponding data dimension's size.
But for 1-D coordinates whose regular-path construction fails the fallback
still runs (and itself fails with IndexError), so the path choice is not
determined solely by dimensionality. -/
theorem interpolate_dispatch_amended (f : Field) (s e : ℚ) :
    (∀ mlon mlat, f.lon = Coords.two mlon → f.lat = Coords.two mlat →
      interpolateField f s e
        = rgiBuild (arangeQ (timeSlice f s e).length)
            (linspace (listMinQ (coordFlat f.lon)) (listMaxQ (coordFlat f.lon))
              (mlon.headD []).length)
            (linspace (listMinQ (coordFlat f.lat)) (listMaxQ (coordFlat f.lat))
              mlat.length)
            (transposeT (timeSlice f s e)))
    ∧ (∀ i, regularPath f (timeSlice f s e) = Except.ok i →
        interpolateField f s e = Except.ok i) := by
  constructor
  · intro mlon mlat hlon hlat
    have hreg : regularPath f (timeSlice f s e)
        = Except.error "ValueError: the points must be 1-dimensional" := by
      unfold regularPath
      rw [hlon]
    unfold interpolateField
    rw [hreg]
    unfold curvilinearPath
    rw [hlon, hlat]
    rfl
  · intro i h
    unfold interpolateField
    rw [h]

/-- Concrete curvilinear field used to instantiate the amended C4 claim. -/
def curvField : Field :=
  Field.mk (Coords.two [[0, 1], [0, 1]]) (Coords.two [[0, 0], [1, 1]]) [0]
    [[[some 0, some 0], [some 0, some 0]]]

theorem interpolate_dispatch_amended_witness :
    interpolateField curvField 0 1
      = rgiBuild (arangeQ (timeSlice curvField 0 1).length)
          (linspace (listMinQ (coordFlat curvField.lon))
            (listMaxQ (coordFlat curvField.lon)) 2)
          (linspace (listMinQ (coordFlat curvField.lat))
            (listMaxQ (coordFlat curvField.lat)) 2)
          (transposeT (timeSlice curvField 0 1)) :=
  (interpolate_dispatch_amended curvField 0 1).1 [[0, 1], [0, 1]] [[0, 0], [1, 1]] rfl rfl

/-- C5: for every `ContinuousField` built by `_interpolate`, a query whose
time index, longitude, or latitude lies outside the interpolant's domain
returns the missing-data sentinel (`none`, modelling NaN); `Interp.eval`
is a total function, so no error is raised and no value is extrapolated. -/
theorem eval_out_of_domain (f : Field) (s e : ℚ) (I : Interp)
    (_hI : interpolateField f s e = Except.ok I) (t lon lat : ℚ)
    (hout : t < listMinQ I.taxis ∨ listMaxQ I.taxis < t
      ∨ lon < listMinQ I.lonaxis ∨ listMaxQ I.lonaxis < lon
      ∨ lat < listMinQ I.lataxis ∨ listMaxQ I.lataxis < lat) :
    I.eval t lon lat = none := by
  have hdom : ¬ (I.inDomain t lon lat = true) := by
    unfold Interp.inDomain
    simp only [Bool.and_eq_true, decide_eq_true_eq]
    rintro ⟨⟨⟨ht1, ht2⟩, hlo1, hlo2⟩, hla1, hla2⟩
    rcases hout with h | h | h | h | h | h <;> linarith
  unfold Interp.eval
  rw [if_neg hdom]

/-- Concrete regular field used to instantiate C5. -/
def regField : Field :=
  Field.mk (Coords.one [0, 1]) (Coords.one [0, 1]) [0, 1]
    [[[some 0, some 0], [some 0, some 0]], [[some 0, some 0], [some 0, some 0]]]

/-- Interpolant that `_interpolate` builds from `regField`. -/
def regInterp : Interp :=
  Interp.mk (arangeQ 2) [0, 1] [0, 1] (transposeT regField.vals)

theorem eval_out_of_domain_witness :
    Interp.eval regInterp 5 0 0 = none :=
  eval_out_of_domain regField 0 1 regInterp (by decide) 5 0 0
    (Or.inr (Or.inl (by decide)))

/-! ### Chart proximity queries (chart.py, lines 143-244)

`isLand`, `find_closest_land` and `find_closest_water` all read the
full-resolution current field at the Chart's start date; that 2-D
snapshot is embedded as a `Grid`: the 1-D coordinate vectors and the
`(latitude, longitude)`-indexed value matrices of `u_current_all` and
`v_current_all` (xarray dimension order, row-major with latitude outer,
which is also the flatten order of `argmin`).

* `isLand` nearest-selects both components and is true when either is
  missing.
* The two searches slice the `u` sub-grid to
  `[lon-r, lon+r] × [lat-r, lat+r]` (label-based slicing, which on the
  monotonically increasing coordinates the slicing requires is exactly
  the filter below), detect presence of the target class from `u` alone,
  and take the arg-minimum of the masked distance matrix
  `(6371·π/180)·sqrt((lat_i-lat)² + (lon_j-lon)²)·cos(lat·π/180)`,
  first occurrence in row-major order on ties.  The embedded selection
  minimizes the squared degree offset `sqDist`; for `|lat| < 90` the
  code's distance is a strictly increasing function of `sqDist`, so the
  selections agree, and at `|lat| = 90` every masked distance is zero so
  every property proved below is selection-independent.  The real-valued
  distance itself (π, sqrt, cos are not computable) is stated in the
  theorems as a function of the selected cell. -/

structure Grid where
  lons : List ℚ
  lats : List ℚ
  u : List (List (Option ℚ))
  v : List (List (Option ℚ))
deriving DecidableEq

def Grid.uval (g : Grid) (i j : ℕ) : Option ℚ :=
  (g.u.getD i []).getD j none

def Grid.vval (g : Grid) (i j : ℕ) : Option ℚ :=
  (g.v.getD i []).getD j none

def minBy {α : Type} (f : α → ℚ) : List α → Option α
  | [] => none
  | x :: xs => some (xs.foldl (fun b y => if f y < f b then y else b) x)

/-- `xarray.sel(..., method="nearest")` along one coordinate axis: the
index of the nearest coordinate value (first occurrence on ties). -/
def nearestIdx (coords : List ℚ) (q : ℚ) : ℕ :=
  match minBy (fun p => |p.2 - q|) coords.enum with
  | none => 0
  | some p => p.1

def Grid.isLand (g : Grid) (lon lat : ℚ) : Bool :=
  (g.uval (nearestIdx g.lats lat) (nearestIdx g.lons lon)).isNone
    || (g.vval (nearestIdx g.lats lat) (nearestIdx g.lons lon)).isNone

/-- Nodes of the `[lon-r, lon+r] × [lat-r, lat+r]` sub-grid, as
`((lat index, lat value), (lon index, lon value))`, latitude outer
(row-major, the order `argmin` flattens in). -/
def subgridNodes (g : Grid) (lon lat r : ℚ) : List ((ℕ × ℚ) × (ℕ × ℚ)) :=
  (g.lats.enum.filter (fun p => decide (lat - r ≤ p.2 ∧ p.2 ≤ lat + r))).flatMap
    (fun pi => (g.lons.enum.filter (fun q => decide (lon - r ≤ q.2 ∧ q.2 ≤ lon + r))).map
      (fun qj => (pi, qj)))

def landNodes (g : Grid) (lon lat r : ℚ) : List ((ℕ × ℚ) × (ℕ × ℚ)) :=
  (subgridNodes g lon lat r).filter (fun n => (g.uval n.1.1 n.2.1).isNone)

def waterNodes (g : Grid) (lon lat r : ℚ) : List ((ℕ × ℚ) × (ℕ × ℚ)) :=
  (subgridNodes g lon lat r).filter (fun n => (g.uval n.1.1 n.2.1).isSome)

/-- Squared degree offset `(Δlat)² + (Δlon)²`; the code's distance matrix
is `(6371·π/180)·sqrt(sqDist)·cos(lat·π/180)`. -/
def sqDist (lon lat nlon nlat : ℚ) : ℚ :=
  (nlat - lat) ^ 2 + (nlon - lon) ^ 2

/-- Modelled from the spec: `geo.bearing_from_lonlat` lives in `geo.py`,
which is not under `src/`; the spec describes it only as a compass
bearing in degrees from North lying in `[0, 360)`.  It is modelled as an
arbitrary raw angle (a parameter of `find_closest_land`) normalized into
`[0, 360)` by this function. -/
def degNormalize (x : ℚ) : ℚ :=
  x - 360 * (⌊x / 360⌋ : ℚ)

def find_closest_land (g : Grid) (raw : ℚ × ℚ → ℚ × ℚ → ℚ) (lon lat r : ℚ) :
    Option ((ℚ × ℚ) × ℚ) :=
  match minBy (fun n => sqDist lon lat n.2.2 n.1.2) (landNodes g lon lat r) with
  | none => none
  | some n => some ((n.2.2, n.1.2), degNormalize (raw (lon, lat) (n.2.2, n.1.2)))

def find_closest_water (g : Grid) (lon lat r : ℚ) : Option (ℚ × ℚ) :=
  match minBy (fun n => sqDist lon lat n.2.2 n.1.2) (waterNodes g lon lat r) with
  | none => none
  | some n => some (n.2.2, n.1.2)

theorem foldlMin_mem {α : Type} (f : α → ℚ) (xs : List α) (b : α) :
    xs.foldl (fun c y => if f y < f c then y else c) b = b
      ∨ xs.foldl (fun c y => if f y < f c then y else c) b ∈ xs := by
  induction xs generalizing b with
  | nil => left; rfl
  | cons x xs ih =>
    simp only [List.foldl_cons]
    rcases ih (if f x < f b then x else b) with h | h
    · rw [h]
      by_cases hx : f x < f b
      · right
        simp [hx]
      · left
        simp [hx]
    · right
      exact List.mem_cons_of_mem _ h

theorem foldlMin_le {α : Type} (f : α → ℚ) (xs : List α) (b : α) :
    f (xs.foldl (fun c y => if f y < f c then y else c) b) ≤ f b
      ∧ ∀ y ∈ xs, f (xs.foldl (fun c y => if f y < f c then y else c) b) ≤ f y := by
  induction xs generalizing b with
  | nil => exact ⟨le_refl _, by simp⟩
  | cons x xs ih =>
    simp only [List.foldl_cons]
    obtain ⟨h1, h2⟩ := ih (if f x < f b then x else b)
    have hb : f (if f x < f b then x else b) ≤ f b := by
      by_cases hx : f x < f b
      · simp [hx]
        exact le_of_lt hx
      · simp [hx]
    have hx : f (if f x < f b then x else b) ≤ f x := by
      by_cases hxb : f x < f b
      · simp [hxb]
      · simp [hxb]
        exact le_of_not_lt hxb
    refine ⟨le_trans h1 hb, ?_⟩
    intro y hy
    rcases List.mem_cons.mp hy with rfl | hmem
    · exact le_trans h1 hx
    · exact h2 y hmem

theorem minBy_mem {α : Type} (f : α → ℚ) (l : List α) (x : α)
    (h : minBy f l = some x) : x ∈ l := by
  cases l with
  | nil => exact absurd h (by simp [minBy])
  | cons a as =>
    have hx : as.foldl (fun c y => if f y < f c then y else c) a = x :=
      Option.some.inj h
    rcases foldlMin_mem f as a with he | hm
    · rw [← hx, he]
      exact List.mem_cons_self a as
    · rw [← hx]
      exact List.mem_cons_of_mem a hm

theorem minBy_min {α : Type} (f : α → ℚ) (l : List α) (x : α)
    (h : minBy f l = some x) : ∀ y ∈ l, f x ≤ f y := by
  cases l with
  | nil => exact absurd h (by simp [minBy])
  | cons a as =>
    have hx : as.foldl (fun c y => if f y < f c then y else c) a = x :=
      Option.some.inj h
    obtain ⟨h1, h2⟩ := foldlMin_le f as a
    intro y hy
    rcases List.mem_cons.mp hy with rfl | hmem
    · rw [← hx]
      exact h1
    · rw [← hx]
      exact h2 y hmem

theorem minBy_eq_none {α : Type} (f : α → ℚ) (l : List α) :
    minBy f l = none ↔ l = [] := by
  cases l <;> simp [minBy]

theorem nearestIdx_getElem (coords : List ℚ) (hnd : coords.Nodup) (j : ℕ) (c : ℚ)
    (hj : coords[j]? = some c) : nearestIdx coords c = j := by
  have hmem : (j, c) ∈ coords.enum := List.mk_mem_enum_iff_getElem?.mpr hj
  unfold nearestIdx
  cases hmin : minBy (fun p => |p.2 - c|) coords.enum with
  | none =>
    rw [minBy_eq_none] at hmin
    rw [hmin] at hmem
    cases hmem
  | some p =>
    obtain ⟨pi, pc⟩ := p
    have hp := minBy_mem _ _ _ hmin
    have hple := minBy_min _ _ _ hmin (j, c) hmem
    simp only [sub_self, abs_zero] at hple
    have habs : |pc - c| = 0 := le_antisymm hple (abs_nonneg _)
    have hpc : pc = c := by
      have h0 := abs_eq_zero.mp habs
      linarith
    have hpj : coords[pi]? = some pc := List.mk_mem_enum_iff_getElem?.mp hp
    have hlen : pi < coords.length := by
      by_contra hcon
      rw [List.getElem?_eq_none (Nat.le_of_not_lt hcon)] at hpj
      exact Option.noConfusion hpj
    have heq : coords[pi]? = coords[j]? := by rw [hpj, hj, hpc]
    exact List.getElem?_inj hlen hnd heq

theorem mem_subgridNodes {g : Grid} {lon lat r : ℚ} {n : (ℕ × ℚ) × (ℕ × ℚ)}
    (h : n ∈ subgridNodes g lon lat r) :
    g.lats[n.1.1]? = some n.1.2 ∧ g.lons[n.2.1]? = some n.2.2 := by
  obtain ⟨⟨i, la⟩, j, lo⟩ := n
  simp only [subgridNodes, List.mem_flatMap, List.mem_map, List.mem_filter] at h
  obtain ⟨pi, ⟨hpi, _⟩, qj, ⟨hqj, _⟩, heq⟩ := h
  obtain ⟨h1, h2⟩ := Prod.mk.inj heq
  subst h1
  subst h2
  exact ⟨List.mk_mem_enum_iff_getElem?.mp hpi, List.mk_mem_enum_iff_getElem?.mp hqj⟩

/-- C3: consistency of `find_closest_water` with `isLand` on a loaded
Chart.  A loaded chart's coordinate vectors are strictly increasing (the
label-based slice selection both searches perform requires a monotonic
index), and the `u` and `v` current components of the loaded dataset are
missing at exactly the same nodes (the invariant the code itself states:
"select only u_current, since if u is None, then v is None too").  Under
these invariants, if the query point is classified as land and
`find_closest_water` returns a cell `(qlon, qlat)` rather than the
absence marker, then `isLand` at that cell returns false. -/
theorem find_closest_water_consistent (g : Grid) (lon lat r qlon qlat : ℚ)
    (hslat : List.Sorted (· < ·) g.lats) (hslon : List.Sorted (· < ·) g.lons)
    (huv : ∀ i, i < g.lats.length → ∀ j, j < g.lons.length →
      (g.uval i j).isNone = (g.vval i j).isNone)
    (_hP : g.isLand lon lat = true)
    (hq : find_closest_water g lon lat r = some (qlon, qlat)) :
    g.isLand qlon qlat = false := by
  unfold find_closest_water at hq
  cases hmin : minBy (fun n => sqDist lon lat n.2.2 n.1.2) (waterNodes g lon lat r) with
  | none =>
    rw [hmin] at hq
    cases hq
  | some n =>
    rw [hmin] at hq
    have hqe := Option.some.inj hq
    have hmem := minBy_mem _ _ _ hmin
    have hw : n ∈ subgridNodes g lon lat r ∧ (g.uval n.1.1 n.2.1).isSome = true := by
      simpa [waterNodes, List.mem_filter] using hmem
    obtain ⟨hsub, hsome⟩ := hw
    obtain ⟨hlat?, hlon?⟩ := mem_subgridNodes hsub
    have hlatlen : n.1.1 < g.lats.length := by
      by_contra hcon
      rw [List.getElem?_eq_none (Nat.le_of_not_lt hcon)] at hlat?
      exact Option.noConfusion hlat?
    have hlonlen : n.2.1 < g.lons.length := by
      by_contra hcon
      rw [List.getElem?_eq_none (Nat.le_of_not_lt hcon)] at hlon?
      exact Option.noConfusion hlon?
    have hni : nearestIdx g.lats n.1.2 = n.1.1 :=
      nearestIdx_getElem _ hslat.nodup _ _ hlat?
    have hnj : nearestIdx g.lons n.2.2 = n.2.1 :=
      nearestIdx_getElem _ hslon.nodup _ _ hlon?
    have hqlon : qlon = n.2.2 := (Prod.mk.inj hqe).1.symm
    have hqlat : qlat = n.1.2 := (Prod.mk.inj hqe).2.symm
    subst hqlon
    subst hqlat
    unfold Grid.isLand
    rw [hni, hnj]
    have hu : (g.uval n.1.1 n.2.1).isNone = false := by
      cases hval : g.uval n.1.1 n.2.1 <;> simp_all
    have hv : (g.vval n.1.1 n.2.1).isNone = false := by
      rw [← huv _ hlatlen _ hlonlen]
      exact hu
    rw [hu, hv]
    rfl

/-- Concrete loaded-chart snapshot: 2×2 grid whose south-west node is
land (missing currents) and whose other three nodes are water. -/
def gridW : Grid :=
  Grid.mk [0, 1] [0, 1]
    [[none, some 1], [some 1, some 1]]
    [[none, some 1], [some 1, some 1]]

theorem find_closest_water_consistent_witness :
    Grid.isLand gridW 1 0 = false := by
  have hsub : subgridNodes gridW 0 0 1
      = [((0, 0), (0, 0)), ((0, 0), (1, 1)), ((1, 1), (0, 0)), ((1, 1), (1, 1))] := by
    norm_num [subgridNodes, gridW, List.enum, List.enumFrom]
  have hwater : waterNodes gridW 0 0 1
      = [((0, 0), (1, 1)), ((1, 1), (0, 0)), ((1, 1), (1, 1))] := by
    rw [waterNodes, hsub]
    decide
  refine find_closest_water_consistent gridW 0 0 1 1 0 ?_ ?_ ?_ ?_ ?_
  · decide
  · decide
  · decide
  · norm_num [Grid.isLand, Grid.uval, Grid.vval, nearestIdx, minBy, gridW,
      List.enum, List.enumFrom, List.foldl, abs]
  · rw [find_closest_water, hwater]
    norm_num [minBy, sqDist, List.foldl]

theorem degNormalize_bounds (x : ℚ) :
    0 ≤ degNormalize x ∧ degNormalize x < 360 := by
  unfold degNormalize
  have hdiv : (360 : ℚ) * (x / 360) = x := by ring
  constructor
  · have h := Int.floor_le (x / 360)
    have h2 := mul_le_mul_of_nonneg_left h (by norm_num : (0 : ℚ) ≤ 360)
    linarith
  · have h := Int.lt_floor_add_one (x / 360)
    have h2 := mul_lt_mul_of_pos_left h (by norm_num : (0 : ℚ) < 360)
    linarith

/-- C9: `find_closest_land` on a point with no missing node within the
radius returns the absence marker; otherwise, for any query point with a
valid WGS84 latitude (−90 ≤ lat ≤ 90), it returns a cell that is a land
node of the search window, a bearing in `[0, 360)`, and the code's
distance `6371·(π/180)·sqrt(Δlat² + Δlon²)·cos(lat·π/180)` at that cell
is non-negative and minimal over all land nodes in the window. -/
theorem find_closest_land_correct (g : Grid) (raw : ℚ × ℚ → ℚ × ℚ → ℚ)
    (lon lat r : ℚ) (hlat : -90 ≤ lat ∧ lat ≤ 90) :
    (landNodes g lon lat r = [] → find_closest_land g raw lon lat r = none)
    ∧ (∀ clon clat θ, find_closest_land g raw lon lat r = some ((clon, clat), θ) →
        (0 : ℚ) ≤ θ ∧ θ < 360
        ∧ (∃ n ∈ landNodes g lon lat r, n.2.2 = clon ∧ n.1.2 = clat)
        ∧ (0 : ℝ) ≤ 6371 * (Real.pi / 180)
            * Real.sqrt (((clat : ℝ) - (lat : ℝ)) ^ 2 + ((clon : ℝ) - (lon : ℝ)) ^ 2)
            * Real.cos ((lat : ℝ) * Real.pi / 180)
        ∧ ∀ m ∈ landNodes g lon lat r,
            6371 * (Real.pi / 180)
              * Real.sqrt (((clat : ℝ) - (lat : ℝ)) ^ 2 + ((clon : ℝ) - (lon : ℝ)) ^ 2)
              * Real.cos ((lat : ℝ) * Real.pi / 180)
            ≤ 6371 * (Real.pi / 180)
              * Real.sqrt (((m.1.2 : ℝ) - (lat : ℝ)) ^ 2 + ((m.2.2 : ℝ) - (lon : ℝ)) ^ 2)
              * Real.cos ((lat : ℝ) * Real.pi / 180)) := by
  have hpi : (0 : ℝ) < Real.pi := Real.pi_pos
  have hcos : (0 : ℝ) ≤ Real.cos ((lat : ℝ) * Real.pi / 180) := by
    apply Real.cos_nonneg_of_mem_Icc
    constructor
    · have hlow : (-90 : ℝ) ≤ (lat : ℝ) := by
        exact_mod_cast hlat.1
      have := mul_le_mul_of_nonneg_right hlow (le_of_lt (by positivity : (0 : ℝ) < Real.pi / 180))
      calc -(Real.pi / 2) = -90 * (Real.pi / 180) := by ring
        _ ≤ (lat : ℝ) * (Real.pi / 180) := this
        _ = (lat : ℝ) * Real.pi / 180 := by ring
    · have hhigh : (lat : ℝ) ≤ 90 := by
        exact_mod_cast hlat.2
      have := mul_le_mul_of_nonneg_right hhigh (le_of_lt (by positivity : (0 : ℝ) < Real.pi / 180))
      calc (lat : ℝ) * Real.pi / 180 = (lat : ℝ) * (Real.pi / 180) := by ring
        _ ≤ 90 * (Real.pi / 180) := this
        _ = Real.pi / 2 := by ring
  constructor
  · intro hempty
    unfold find_closest_land
    rw [hempty]
    rfl
  · intro clon clat θ hq
    unfold find_closest_land at hq
    cases hmin : minBy (fun n => sqDist lon lat n.2.2 n.1.2) (landNodes g lon lat r) with
    | none =>
      rw [hmin] at hq
      cases hq
    | some n =>
      rw [hmin] at hq
      have hqe := Option.some.inj hq
      have hcell := (Prod.mk.inj hqe).1
      have hθ : degNormalize (raw (lon, lat) (n.2.2, n.1.2)) = θ := (Prod.mk.inj hqe).2
      have hclon : n.2.2 = clon := (Prod.mk.inj hcell).1
      have hclat : n.1.2 = clat := (Prod.mk.inj hcell).2
      have hmem := minBy_mem _ _ _ hmin
      refine ⟨?_, ?_, ⟨n, hmem, hclon, hclat⟩, ?_, ?_⟩
      · rw [← hθ]
        exact (degNormalize_bounds _).1
      · rw [← hθ]
        exact (degNormalize_bounds _).2
      · positivity
      · intro m hm
        have hle := minBy_min _ _ _ hmin m hm
        have hsq : sqDist lon lat clon clat ≤ sqDist lon lat m.2.2 m.1.2 := by
          rw [← hclon, ← hclat]
          exact hle
        have hsqR : ((clat : ℝ) - (lat : ℝ)) ^ 2 + ((clon : ℝ) - (lon : ℝ)) ^ 2
            ≤ ((m.1.2 : ℝ) - (lat : ℝ)) ^ 2 + ((m.2.2 : ℝ) - (lon : ℝ)) ^ 2 := by
          have := hsq
          unfold sqDist at this
          exact_mod_cast this
        have hsqrt := Real.sqrt_le_sqrt hsqR
        have hfac : (0 : ℝ) ≤ 6371 * (Real.pi / 180) := by positivity
        have h1 := mul_le_mul_of_nonneg_left hsqrt hfac
        have h2 := mul_le_mul_of_nonneg_right h1 hcos
        calc 6371 * (Real.pi / 180)
              * Real.sqrt (((clat : ℝ) - (lat : ℝ)) ^ 2 + ((clon : ℝ) - (lon : ℝ)) ^ 2)
              * Real.cos ((lat : ℝ) * Real.pi / 180)
            = 6371 * (Real.pi / 180)
              * Real.sqrt (((clat : ℝ) - (lat : ℝ)) ^ 2 + ((clon : ℝ) - (lon : ℝ)) ^ 2)
              * Real.cos ((lat : ℝ) * Real.pi / 180) := rfl
          _ ≤ 6371 * (Real.pi / 180)
              * Real.sqrt (((m.1.2 : ℝ) - (lat : ℝ)) ^ 2 + ((m.2.2 : ℝ) - (lon : ℝ)) ^ 2)
              * Real.cos ((lat : ℝ) * Real.pi / 180) := h2

theorem find_closest_land_correct_witness :
    find_closest_land gridW (fun _ _ => 0) 0 0 1 = some ((0, 0), 0)
    ∧ (0 : ℚ) ≤ 0 ∧ (0 : ℚ) < 360 := by
  have hq : find_closest_land gridW (fun _ _ => 0) 0 0 1 = some ((0, 0), 0) := by
    have hsub : subgridNodes gridW 0 0 1
        = [((0, 0), (0, 0)), ((0, 0), (1, 1)), ((1, 1), (0, 0)), ((1, 1), (1, 1))] := by
      norm_num [subgridNodes, gridW, List.enum, List.enumFrom]
    have hland : landNodes gridW 0 0 1 = [((0, 0), (0, 0))] := by
      rw [landNodes, hsub]
      decide
    rw [find_closest_land, hland]
    norm_num [minBy, sqDist, degNormalize, List.foldl, Int.floor_zero]
  have h := (find_closest_land_correct gridW (fun _ _ => 0) 0 0 1
    (by norm_num)).2 0 0 0 hq
  exact ⟨hq, h.1, h.2.1⟩

/-! ### Chart (chart.py, lines 50-141)

A `Chart` owns the bounding box, the time window, the five
full-resolution fields read by `load`, the derived coordinate vectors,
and — once `interpolate` has run — the four sub-window interpolants
(`u_current`, `v_current`, `u_wind`, `v_wind`; `None` before the first
`interpolate` call, since `__init__` does not create them).
`interpolate(date, duration)` computes `end = date + duration` days and
reassigns exactly those four attributes from the retained
full-resolution fields; nothing else is touched.

The proximity queries read the full-resolution current fields at the
chart's start date (`sel(time=start_date, method="nearest")` along the
time axis): their snapshot is the `Grid` built from the 1-D coordinate
vectors of `u_current_all` (`u` and `v` of a loaded dataset share their
coordinates; a 2-D coordinate array would make the selection raise in
xarray, so `coords1` maps that case to the empty vector) and the value
slabs of `u_current_all` and `v_current_all` nearest the start date. -/

structure Chart where
  bbox : List ℚ
  start_date : ℚ
  end_date : ℚ
  u_current_all : Field
  v_current_all : Field
  u_wind_all : Field
  v_wind_all : Field
  waves_all : Field
  longitudes : List ℚ
  latitudes : List ℚ
  u_current : Option (Except String Interp)
  v_current : Option (Except String Interp)
  u_wind : Option (Except String Interp)
  v_wind : Option (Except String Interp)
deriving DecidableEq

def Chart.interpolate (c : Chart) (date : ℚ) (duration : ℚ) : Chart :=
  { c with
    u_current := some (interpolateField c.u_current_all date (date + duration))
    v_current := some (interpolateField c.v_current_all date (date + duration))
    u_wind := some (interpolateField c.u_wind_all date (date + duration))
    v_wind := some (interpolateField c.v_wind_all date (date + duration)) }

def coords1 : Coords → List ℚ
  | Coords.one l => l
  | Coords.two _ => []

def Field.snapshot (f : Field) (t : ℚ) : List (List (Option ℚ)) :=
  f.vals.getD (nearestIdx f.times t) []

def Chart.grid (c : Chart) : Grid :=
  Grid.mk (coords1 c.u_current_all.lon) (coords1 c.u_current_all.lat)
    (c.u_current_all.snapshot c.start_date)
    (c.v_current_all.snapshot c.start_date)

def Chart.isLand (c : Chart) (lon lat : ℚ) : Bool :=
  Grid.isLand c.grid lon lat

def Chart.find_closest_land (c : Chart) (raw : ℚ × ℚ → ℚ × ℚ → ℚ)
    (lon lat r : ℚ) : Option ((ℚ × ℚ) × ℚ) :=
  Voyager.find_closest_land c.grid raw lon lat r

def Chart.find_closest_water (c : Chart) (lon lat r : ℚ) : Option (ℚ × ℚ) :=
  Voyager.find_closest_water c.grid lon lat r

def applyInterpolations (c : Chart) (calls : List (ℚ × ℚ)) : Chart :=
  calls.foldl (fun ch p => ch.interpolate p.1 p.2) c

theorem applyInterpolations_grid (c : Chart) (calls : List (ℚ × ℚ)) :
    Chart.grid (applyInterpolations c calls) = Chart.grid c := by
  induction calls generalizing c with
  | nil => rfl
  | cons p ps ih => exact (ih (c.interpolate p.1 p.2)).trans rfl

/-- C7: `interpolate(date, duration)` replaces exactly the four sub-window
interpolants, rebuilding them from the retained full-resolution fields over
`[date, date + duration]`, and leaves every other chart attribute (bounding
box, dates, the five full-resolution fields, the coordinate vectors)
unchanged; consequently `isLand`, `find_closest_land` and
`find_closest_water`, which read only the full-resolution current fields at
the chart's start date, return the same results after any sequence of
`interpolate` calls as before. -/
theorem chart_interpolate_frame (c : Chart) (d dur : ℚ) (calls : List (ℚ × ℚ))
    (raw : ℚ × ℚ → ℚ × ℚ → ℚ) (lon lat r : ℚ) :
    ((c.interpolate d dur).u_current
        = some (interpolateField c.u_current_all d (d + dur))
      ∧ (c.interpolate d dur).v_current
        = some (interpolateField c.v_current_all d (d + dur))
      ∧ (c.interpolate d dur).u_wind
        = some (interpolateField c.u_wind_all d (d + dur))
      ∧ (c.interpolate d dur).v_wind
        = some (interpolateField c.v_wind_all d (d + dur)))
    ∧ ((c.interpolate d dur).bbox = c.bbox
      ∧ (c.interpolate d dur).start_date = c.start_date
      ∧ (c.interpolate d dur).end_date = c.end_date
      ∧ (c.interpolate d dur).u_current_all = c.u_current_all
      ∧ (c.interpolate d dur).v_current_all = c.v_current_all
      ∧ (c.interpolate d dur).u_wind_all = c.u_wind_all
      ∧ (c.interpolate d dur).v_wind_all = c.v_wind_all
      ∧ (c.interpolate d dur).waves_all = c.waves_all
      ∧ (c.interpolate d dur).longitudes = c.longitudes
      ∧ (c.interpolate d dur).latitudes = c.latitudes)
    ∧ (Chart.isLand (applyInterpolations c calls) lon lat = Chart.isLand c lon lat
      ∧ Chart.find_closest_land (applyInterpolations c calls) raw lon lat r
          = Chart.find_closest_land c raw lon lat r
      ∧ Chart.find_closest_water (applyInterpolations c calls) lon lat r
          = Chart.find_closest_water c lon lat r) := by
  refine ⟨⟨rfl, rfl, rfl, rfl⟩,
    ⟨rfl, rfl, rfl, rfl, rfl, rfl, rfl, rfl, rfl, rfl⟩, ?_, ?_, ?_⟩
  · unfold Chart.isLand
    rw [applyInterpolations_grid]
  · unfold Chart.find_closest_land
    rw [applyInterpolations_grid]
  · unfold Chart.find_closest_water
    rw [applyInterpolations_grid]

/-! ### Traverser.run and Traverser.run_mp (traverser.py, lines 110-187)

Both drivers build one Chart and one Model, then loop over
`dates[::launch_day_frequency]`; each launch re-creates the vessels from
`departure_points`, re-interpolates the shared chart for
`[date, date + duration]`, binds the model to it, and produces one
trajectory per departure point — `run` in a sequential `for` loop,
`run_mp` through `multiprocessing.Pool.map`.  Results accumulate into a
dict keyed by launch date in insertion order (launch dates are distinct,
so no key is overwritten); launch dates are day ordinals here, where the
code formats them as `YYYY-MM-DD` strings (injective on distinct days).
The external collaborators `Model` and `Vessel` (models.py is not under
`src/`) are modelled from the spec: `run(vessel)` is an opaque stepping
function of the interpolated environment and the departure point, "safe
to invoke concurrently for different vessels against the same
environment", i.e. a pure function `modelRun`. -/

/-- Modelled from the spec: `multiprocessing.Pool.map` dispatches one
task per list element and gathers the results in submission order
("parallel dispatch preserves submission order on gather"), so its
observable behaviour is the ordered `List.map`. -/
def poolMap {α β : Type} (f : α → β) (l : List α) : List β :=
  l.map f

def runLaunchesSeq {τ : Type} (duration : ℚ) (deps : List (ℚ × ℚ))
    (modelRun : Chart → (ℚ × ℚ) → τ) : Chart → List ℕ → List (ℕ × List τ)
  | _, [] => []
  | ch, d :: ds =>
    (d, deps.map (modelRun (ch.interpolate (d : ℚ) duration)))
      :: runLaunchesSeq duration deps modelRun (ch.interpolate (d : ℚ) duration) ds

def runLaunchesPar {τ : Type} (duration : ℚ) (deps : List (ℚ × ℚ))
    (modelRun : Chart → (ℚ × ℚ) → τ) : Chart → List ℕ → List (ℕ × List τ)
  | _, [] => []
  | ch, d :: ds =>
    (d, poolMap (modelRun (ch.interpolate (d : ℚ) duration)) deps)
      :: runLaunchesPar duration deps modelRun (ch.interpolate (d : ℚ) duration) ds

def Traverser.run {τ : Type} (chart : Chart) (dates : List ℕ) (freq : ℕ)
    (duration : ℚ) (deps : List (ℚ × ℚ))
    (modelRun : Chart → (ℚ × ℚ) → τ) : List (ℕ × List τ) :=
  runLaunchesSeq duration deps modelRun chart (stride dates freq)

def Traverser.run_mp {τ : Type} (chart : Chart) (dates : List ℕ) (freq : ℕ)
    (duration : ℚ) (deps : List (ℚ × ℚ))
    (modelRun : Chart → (ℚ × ℚ) → τ) : List (ℕ × List τ) :=
  runLaunchesPar duration deps modelRun chart (stride dates freq)

theorem runLaunches_eq {τ : Type} (duration : ℚ) (deps : List (ℚ × ℚ))
    (modelRun : Chart → (ℚ × ℚ) → τ) (ch : Chart) (ds : List ℕ) :
    runLaunchesSeq duration deps modelRun ch ds
      = runLaunchesPar duration deps modelRun ch ds := by
  induction ds generalizing ch with
  | nil => rfl
  | cons d ds ih =>
    unfold runLaunchesSeq runLaunchesPar poolMap
    rw [ih]

/-- C8: for the same configuration (chart, dates, launch frequency,
duration, departure points) and the same external model, the sequential
driver `run` and the parallel driver `run_mp` produce equal results: the
same launch-date keys in the same order, and within each launch the same
trajectories listed in departure-point order. -/
theorem run_eq_run_mp {τ : Type} (chart : Chart) (dates : List ℕ) (freq : ℕ)
    (duration : ℚ) (deps : List (ℚ × ℚ))
    (modelRun : Chart → (ℚ × ℚ) → τ) :
    Traverser.run chart dates freq duration deps modelRun
      = Traverser.run_mp chart dates freq duration deps modelRun
    ∧ (Traverser.run chart dates freq duration deps modelRun).map Prod.fst
      = stride dates freq
    ∧ ∀ d ts, (d, ts) ∈ Traverser.run chart dates freq duration deps modelRun →
        ts.length = deps.length := by
  refine ⟨runLaunches_eq duration deps modelRun chart (stride dates freq), ?_, ?_⟩
  · unfold Traverser.run
    generalize stride dates freq = ds
    induction ds generalizing chart with
    | nil => rfl
    | cons d ds ih =>
      unfold runLaunchesSeq
      simp only [List.map_cons, List.cons.injEq]
      exact ⟨trivial, ih (chart.interpolate (d : ℚ) duration)⟩
  · unfold Traverser.run
    generalize stride dates freq = ds
    induction ds generalizing chart with
    | nil =>
      intro d ts h
      cases h
    | cons d ds ih =>
      intro d2 ts h
      unfold runLaunchesSeq at h
      rcases List.mem_cons.mp h with he | hm
      · obtain ⟨-, h2⟩ := Prod.mk.inj he.symm
        rw [← h2, List.length_map]
      · exact ih (chart.interpolate (d : ℚ) duration) d2 ts hm

end Voyager
